import Mathlib

/-
  Verification development for the botslacks repository.

  The definitions below are a shallow embedding of the Python sources:
    src/botslacks/__init__.py      (BotCommand, CommandDispatcher, parse_args,
                                    SlackBot._calculate_prefix, SlackBot._calculate_response, Help)
    src/botslacks/commands/jenkins.py  (Jenkins.info, Jenkins.find_job, Jenkins.process)

  Python dicts are embedded as insertion-ordered association lists, machine
  strings as Lean String, fallible results as Option/Except.
-/

namespace Botslacks

/-- Python's str.isspace character class, used by str.split with no separator
(CPython: ASCII whitespace, the C1 control separators, NEL, and the Unicode
space/line/paragraph separators). -/
def py_isspace (c : Char) : Bool :=
  c = ' ' || c = '\t' || c = '\n' || c = '\x0b' || c = '\x0c' || c = '\r' ||
  c = '\x1c' || c = '\x1d' || c = '\x1e' || c = '\x1f' || c = '\x85' ||
  c = '\xa0' || c = ' ' ||
  (' ' ≤ c && c ≤ ' ') ||
  c = ' ' || c = ' ' || c = ' ' || c = ' ' || c = '　'

/-- Embedding of CPython's `s.split(maxsplit=1)` with no separator, on the
character list of `s`: skip leading whitespace; if nothing remains, no parts;
otherwise take the first whitespace-free token, skip the following whitespace
run, and keep whatever remains (verbatim, trailing whitespace included) as the
second part when it is non-empty. -/
def py_split1 (l : List Char) : List (List Char) :=
  match l.dropWhile py_isspace with
  | [] => []
  | l1 =>
    let tok := l1.takeWhile (fun c => !py_isspace c)
    match (l1.dropWhile (fun c => !py_isspace c)).dropWhile py_isspace with
    | [] => [tok]
    | rest => [tok, rest]

/-- Embedding of `parse_args` from src/botslacks/__init__.py:
`splitted = s.split(maxsplit=1)`; two or more parts gives both, one part gives
`(part, '')`, none gives `('', '')`. -/
def parse_args (s : String) : String × String :=
  match py_split1 s.data with
  | [a, b] => (String.mk a, String.mk b)
  | [a] => (String.mk a, "")
  | _ => ("", "")

mutual
/-- Embedding of `BotCommand` from src/botslacks/__init__.py: raw record fields
(func, description, key, subcommands, argspec).  Built through
`BotCommand.make`, which performs `__init__`'s argspec derivation. -/
inductive BotCommand : Type where
  | mk : (func : String → Option String) → (description : String) → (key : String) →
         (subcommands : Option CommandDispatcher) → (argspec : String) → BotCommand

/-- Embedding of `CommandDispatcher` from src/botslacks/__init__.py: `_commands` is the
insertion-ordered dict of registered commands; `command_width` and
`argspec_width` are the "for display help" width fields. -/
inductive CommandDispatcher : Type where
  | mk : (commands : List (String × BotCommand)) → (command_width : Nat) →
         (argspec_width : Nat) → CommandDispatcher
end

def BotCommand.func : BotCommand → (String → Option String)
  | .mk f _ _ _ _ => f

def BotCommand.description : BotCommand → String
  | .mk _ d _ _ _ => d

def BotCommand.key : BotCommand → String
  | .mk _ _ k _ _ => k

def BotCommand.subcommands : BotCommand → Option CommandDispatcher
  | .mk _ _ _ s _ => s

def BotCommand.argspec : BotCommand → String
  | .mk _ _ _ _ a => a

/-- Embedding of `BotCommand.__call__`: `return self.func(input_text)`. -/
def BotCommand.call (c : BotCommand) (input_text : String) : Option String :=
  c.func input_text

def CommandDispatcher.commands : CommandDispatcher → List (String × BotCommand)
  | .mk c _ _ => c

def CommandDispatcher.command_width : CommandDispatcher → Nat
  | .mk _ w _ => w

def CommandDispatcher.argspec_width : CommandDispatcher → Nat
  | .mk _ _ w => w

/-- Embedding of `CommandDispatcher.__init__`: empty dict, both widths 0. -/
def CommandDispatcher.new : CommandDispatcher := .mk [] 0 0

/-- First-match lookup in an insertion-ordered association list (embedding of
Python dict indexing / `.get`; keys are unique after registration). -/
def lookupFirst {α : Type} : List (String × α) → String → Option α
  | [], _ => none
  | (k, v) :: rest, key => if k = key then some v else lookupFirst rest key

/-- Embedding of `CommandDispatcher.get`: `self._commands.get(key)`. -/
def CommandDispatcher.get (d : CommandDispatcher) (key : String) : Option BotCommand :=
  lookupFirst d.commands key

/-- Embedding of `key in self._commands` (also `CommandDispatcher.has`). -/
def CommandDispatcher.has (d : CommandDispatcher) (key : String) : Bool :=
  (d.get key).isSome

/-- Embedding of `CommandDispatcher.keys`: the dict's keys, in insertion order. -/
def CommandDispatcher.keys (d : CommandDispatcher) : List String :=
  d.commands.map Prod.fst

/-- Embedding of `self._commands.values()`, in insertion order. -/
def CommandDispatcher.values (d : CommandDispatcher) : List BotCommand :=
  d.commands.map Prod.snd

/-- Embedding of `BotCommand.__init__`: stores the fields and automatically calculates
argspec as `'|'.join(subcommands.keys())` when `subcommands` is supplied and
`argspec` is falsy (the empty string, via `register_command`'s default). -/
def BotCommand.make (func : String → Option String) (description key : String)
    (subcommands : Option CommandDispatcher) (argspec : String) : BotCommand :=
  BotCommand.mk func description key subcommands
    (match subcommands with
     | some sub => if argspec = "" then String.intercalate "|" sub.keys else argspec
     | none => argspec)

/-- Embedding of `CommandDispatcher.register_command`: raises `SlackError('Already
registered: ...')` when the key is present (embedded as `Except.error` with
that message); otherwise inserts the new `BotCommand` at the end of the dict
and bumps `command_width` / `argspec_width` using `len(key)` and the length of
the `argspec` argument as passed. -/
def CommandDispatcher.register_command (d : CommandDispatcher) (key : String)
    (func : String → Option String) (argspec description : String)
    (subcommands : Option CommandDispatcher) : Except String CommandDispatcher :=
  if (d.get key).isSome then
    Except.error ("Already registered: " ++ key)
  else
    Except.ok (CommandDispatcher.mk
      (d.commands ++ [(key, BotCommand.make func description key subcommands argspec)])
      (if key.length > d.command_width then key.length else d.command_width)
      (if argspec.length > d.argspec_width then argspec.length else d.argspec_width))

/-- One registration request: the arguments of a `register_command` call. -/
structure RegRequest where
  key : String
  func : String → Option String
  argspec : String
  description : String
  subcommands : Option CommandDispatcher

/-- A sequence of `register_command` calls, stopping at the first error. -/
def registerAll (d : CommandDispatcher) : List RegRequest → Except String CommandDispatcher
  | [] => Except.ok d
  | r :: rs =>
    match d.register_command r.key r.func r.argspec r.description r.subcommands with
    | Except.error e => Except.error e
    | Except.ok d1 => registerAll d1 rs

/-- Unwrap a registration chain known to succeed (concrete examples only). -/
def getOrEmpty (e : Except String CommandDispatcher) : CommandDispatcher :=
  match e with
  | Except.ok d => d
  | Except.error _ => CommandDispatcher.new

/-- Python's `str.rjust(width)`: pad with spaces on the left up to `width`
(unchanged when already at least that long). -/
def rjust (s : String) (width : Nat) : String :=
  String.mk (List.replicate (width - s.length) ' ') ++ s

/-- Embedding of `'{} {} {}'.format(a, b, c)`. -/
def fmt3 (a b c : String) : String :=
  a ++ " " ++ b ++ " " ++ c

/-- The list of lines built by `CommandDispatcher.help` (the `texts` list):
with a parent command, widths are widened by the parent and a header line for
the parent is emitted first; then one line per registered command in insertion
order, each right-justifying `prefix + key` and the argspec. -/
def CommandDispatcher.helpLines (d : CommandDispatcher)
    (parent_command : Option BotCommand) : List String :=
  match parent_command with
  | none =>
    d.values.map (fun command =>
      fmt3 (rjust command.key d.command_width)
        (rjust command.argspec d.argspec_width) command.description)
  | some pc =>
    let pfx := pc.key ++ " "
    let argspec_width := Nat.max pc.argspec.length d.argspec_width
    let command_width := pfx.length + d.command_width
    fmt3 (rjust pc.key command_width) (rjust pc.argspec argspec_width) pc.description
      :: d.values.map (fun command =>
        fmt3 (rjust (pfx ++ command.key) command_width)
          (rjust command.argspec argspec_width) command.description)

/-- Embedding of `CommandDispatcher.help`: `'\n'.join(texts)`. -/
def CommandDispatcher.help (d : CommandDispatcher)
    (parent_command : Option BotCommand) : String :=
  String.intercalate "\n" (d.helpLines parent_command)

/-- The spec's `DispatchResult`: `NoMatch` (key not found), `Silent` (handler
ran, empty/absent result), or `Reply text`. -/
inductive DispatchResult : Type where
  | NoMatch : DispatchResult
  | Silent : DispatchResult
  | Reply : String → DispatchResult
deriving DecidableEq

/-- The dispatch core of `SlackBot._calculate_response` (lines 197-205), read
as the spec's `dispatch(registry, rawInput) -> DispatchResult`: split the raw
input, look the key up, `None` from `get` is no match, and a falsy handler
result (`None` or the empty string) sends nothing. -/
def dispatch (reg : CommandDispatcher) (raw : String) : DispatchResult :=
  let p := parse_args raw
  match reg.get p.1 with
  | none => DispatchResult.NoMatch
  | some command =>
    match command.call p.2 with
    | none => DispatchResult.Silent
    | some response_text =>
      if response_text = "" then DispatchResult.Silent
      else DispatchResult.Reply response_text

/-- An inbound Slack message as `_calculate_response` reads it:
`msg['channel']`, `msg['user']`, `msg['text']`. -/
structure Msg where
  channel : String
  user : String
  text : String

/-- The outbound message dict `{'id': ..., 'type': 'message', 'channel': ...,
'text': ...}` (the constant `'type'` field is omitted). -/
structure OutMsg where
  id : Nat
  channel : String
  text : String
deriving DecidableEq

/-- Embedding of `s.startswith('D')`. -/
def startswithD (s : String) : Bool :=
  match s.data with
  | 'D' :: _ => true
  | _ => false

/-- Embedding of `SlackBot._calculate_prefix` (the state used is `self.user_names`):
direct messages (channel id starting with `'D'`) get no prefix; otherwise the
sender's display name followed by `', '`, or nothing when the name is unknown
or empty. -/
def calculate_addressing (user_names : List (String × String)) (msg : Msg) : String :=
  if startswithD msg.channel then ""
  else
    let pfx := (lookupFirst user_names msg.user).getD ""
    if pfx = "" then "" else pfx ++ ", "

/-- Embedding of `SlackBot._calculate_response`: parse the text, look up the command,
return `None` (send nothing) on no match or falsy handler result, otherwise
build the outbound message with the addressing prefix prepended. -/
def calculate_response (user_names : List (String × String))
    (commands : CommandDispatcher) (msg : Msg) (response_id : Nat) : Option OutMsg :=
  let p := parse_args msg.text
  match commands.get p.1 with
  | none => none
  | some command =>
    match command.call p.2 with
    | none => none
    | some response_text =>
      if response_text = "" then none
      else some ⟨response_id, msg.channel,
        calculate_addressing user_names msg ++ response_text⟩

/-- Embedding of `Help._help_text`: `'{} {} {}'.format(command.key, command.argspec,
command.description)`. -/
def help_text_single (command : BotCommand) : String :=
  fmt3 command.key command.argspec command.description

/-- Embedding of `Help.__call__` (the bot's root registry is `commands`): a matching
command with subcommands renders the sub-registry's help scoped by the
command; a matching command without subcommands renders its single help line;
no match renders the root registry's help; the result is wrapped in
triple-backtick markers. -/
def help_call (commands : CommandDispatcher) (text : String) : String :=
  let help_text :=
    match commands.get text with
    | some command =>
      match command.subcommands with
      | some sub => sub.help (some command)
      | none => help_text_single command
    | none => commands.help none
  "```" ++ help_text ++ "```"

/-- Embedding of `JenkinsJob` from src/botslacks/commands/jenkins.py. -/
structure JenkinsJob where
  name : String
  url : String
deriving DecidableEq

/-- Embedding of `s.lower()` (ASCII letters; the scenario inputs are ASCII). -/
def pyLower (s : String) : String :=
  String.mk (s.data.map Char.toLower)

/-- Worker for `str.split()` with no arguments: whitespace-separated tokens,
no empties. -/
def pyWordsAux : List Char → List Char → List String
  | [], acc => if acc.isEmpty then [] else [String.mk acc.reverse]
  | c :: cs, acc =>
    if py_isspace c then
      if acc.isEmpty then pyWordsAux cs [] else String.mk acc.reverse :: pyWordsAux cs []
    else pyWordsAux cs (c :: acc)

/-- Embedding of `s.split()` with no arguments. -/
def pyWords (s : String) : List String :=
  pyWordsAux s.data []

/-- Test that `pat` is a contiguous leading run of `l`. -/
def isPrefixL : List Char → List Char → Bool
  | [], _ => true
  | _ :: _, [] => false
  | p :: ps, c :: cs => p = c && isPrefixL ps cs

/-- Python's `word in k` on strings: contiguous substring test. -/
def isSubstrL (pat : List Char) : List Char → Bool
  | [] => pat.isEmpty
  | l@(_ :: rest) => isPrefixL pat l || isSubstrL pat rest

/-- Stable insertion of one scored item into a descending-by-score list:
ties keep the earlier item first. -/
def insertByScoreDesc (x : String × Nat) : List (String × Nat) → List (String × Nat)
  | [] => [x]
  | y :: ys => if y.2 < x.2 then x :: y :: ys else y :: insertByScoreDesc x ys

/-- Embedding of `sorted(scores.items(), key=operator.itemgetter(1), reverse=True)`:
Python's sort is stable, and `reverse=True` keeps equal-score items in
insertion order while ordering scores descending. -/
def sortByScoreDesc : List (String × Nat) → List (String × Nat)
  | [] => []
  | x :: xs => insertByScoreDesc x (sortByScoreDesc xs)

/-- Embedding of `Jenkins.find_job`: lowercase and tokenize the query, score every job key
by the number of query words occurring in it as substrings, sort descending by
score (stable), and return the job stored at the top key; `None` when there
are no jobs at all. -/
def find_job (jobs : List (String × JenkinsJob)) (s : String) : Option JenkinsJob :=
  let words := pyWords (pyLower s)
  let scores := jobs.map (fun p =>
    (p.1, (words.filter (fun w => isSubstrL w.data p.1.data)).length))
  match sortByScoreDesc scores with
  | [] => none
  | top :: _ => lookupFirst jobs top.1

/-- Embedding of `Jenkins.info`: on non-empty input, look the job up and report
`'Found {} ({})'.format(job.name, job.url)`; `None` otherwise. -/
def Jenkins.info (jobs : List (String × JenkinsJob)) (text : String) : Option String :=
  if text = "" then none
  else
    match find_job jobs text with
    | some job => some ("Found " ++ job.name ++ " (" ++ job.url ++ ")")
    | none => none

/-- Embedding of `Jenkins.process` (the instance's sub-registry is `commands`): re-split
the remainder and dispatch into the Jenkins sub-registry, passing the
subcommand's result through unchanged; `None` when no subcommand matches. -/
def Jenkins.process (commands : CommandDispatcher) (text : String) : Option String :=
  let p := parse_args text
  match commands.get p.1 with
  | some subcommand => subcommand.call p.2
  | none => none

/-- The maximum of a list of lengths (0 for the empty list). -/
def maxLen (l : List Nat) : Nat :=
  l.foldr Nat.max 0

/-- Follows the spec words for the splitter contract taken literally: "split
on the first run of whitespace", the key being the text before the first
whitespace character and "the remainder after that run passed through
verbatim"; with no whitespace the key is the whole text. -/
def split_first_ws_run (s : String) : String × String :=
  (String.mk (s.data.takeWhile (fun c => !py_isspace c)),
   String.mk ((s.data.dropWhile (fun c => !py_isspace c)).dropWhile py_isspace))

/-- A fallback `BotCommand` for unwrapping concrete lookups. -/
def defaultBotCommand : BotCommand :=
  BotCommand.mk (fun _ => none) "" "" none ""

/-- A registry holding one command `ping` whose handler answers `pong` on
every input. -/
def pingReg : CommandDispatcher :=
  getOrEmpty (CommandDispatcher.new.register_command "ping"
    (fun _ => some "pong") "" "replies with pong" none)

/-- The `ping` entry of `pingReg`. -/
def pingCmd : BotCommand :=
  (pingReg.get "ping").getD defaultBotCommand

/-- The Jenkins job table of the C3 scenario: one job, `MyProject`. -/
def jenkinsJobs : List (String × JenkinsJob) :=
  [("myproject", ⟨"MyProject", "http://..."⟩)]

/-- The Jenkins sub-registry of the C3 scenario: the `info` subcommand, as
registered in `Jenkins.__init__`. -/
def jenkinsCommands : CommandDispatcher :=
  getOrEmpty (CommandDispatcher.new.register_command "info"
    (Jenkins.info jenkinsJobs) "<project name>" "displays project information" none)

/-- The C3 root registry: `jenkins` registered with `Jenkins.process` as
handler and the Jenkins sub-registry as subcommands. -/
def c3Root : CommandDispatcher :=
  getOrEmpty (CommandDispatcher.new.register_command "jenkins"
    (Jenkins.process jenkinsCommands) "" "jenkins integration" (some jenkinsCommands))

/-- The user-name table of the C3 scenario: sender `U1` is `alice`. -/
def c3Users : List (String × String) :=
  [("U1", "alice")]

/-- A sub-registry with keys `info` and `help` (both argspecs defaulted), for
the width counterexample and the argspec-derivation witness. -/
def widthSub : CommandDispatcher :=
  getOrEmpty (registerAll CommandDispatcher.new
    [⟨"info", fun _ => none, "", "", none⟩, ⟨"help", fun _ => none, "", "", none⟩])

/-- Embedding of `jenkins` registered over `widthSub` with the argspec defaulted: the
stored argspec is derived from the sub-registry's keys. -/
def widthReg : CommandDispatcher :=
  getOrEmpty (CommandDispatcher.new.register_command "jenkins"
    (fun _ => none) "" "" (some widthSub))

/-- Embedding of `jenkins` registered over `widthSub` with an explicit argspec. -/
def custReg : CommandDispatcher :=
  getOrEmpty (CommandDispatcher.new.register_command "jenkins"
    (fun _ => none) "custom" "" (some widthSub))

/-- The C2 witness registrations: keys `a` and `bb`, argspecs `` and `x`. -/
def wReqs : List RegRequest :=
  [⟨"a", fun _ => some "x", "", "first", none⟩,
   ⟨"bb", fun _ => some "y", "x", "second", none⟩]

/-- The registry built from `wReqs` (also the C9 example registry). -/
def wReg : CommandDispatcher :=
  getOrEmpty (registerAll CommandDispatcher.new wReqs)

/-- A registry with two subcommand-free commands, `ping` and `status`, for the
Help fallback claims. -/
def c7Reg : CommandDispatcher :=
  getOrEmpty (registerAll CommandDispatcher.new
    [⟨"ping", fun _ => some "pong", "", "sends pong", none⟩,
     ⟨"status", fun _ => some "ok", "", "shows status", none⟩])

/-- The `ping` entry of `c7Reg`. -/
def c7PingCmd : BotCommand :=
  (c7Reg.get "ping").getD defaultBotCommand


lemma parse_args_fst (s : String) :
    (parse_args s).1.data = (s.data.dropWhile py_isspace).takeWhile (fun c => !py_isspace c) := by
  unfold parse_args py_split1
  cases h1 : s.data.dropWhile py_isspace with
  | nil => simp
  | cons c cs =>
    cases h2 : ((c :: cs).dropWhile (fun c => !py_isspace c)).dropWhile py_isspace with
    | nil => simp [h2]
    | cons d ds => simp [h2]

lemma parse_args_snd (s : String) :
    (parse_args s).2.data =
      ((s.data.dropWhile py_isspace).dropWhile (fun c => !py_isspace c)).dropWhile py_isspace := by
  unfold parse_args py_split1
  cases h1 : s.data.dropWhile py_isspace with
  | nil => simp
  | cons c cs =>
    cases h2 : ((c :: cs).dropWhile (fun c => !py_isspace c)).dropWhile py_isspace with
    | nil => simp [h2]
    | cons d ds => simp [h2]

lemma key_no_ws (s : String) : ∀ c ∈ (parse_args s).1.data, py_isspace c = false := by
  intro c hc
  rw [parse_args_fst] at hc
  have := List.mem_takeWhile_imp hc
  simpa using this

lemma decomp (s : String) :
    s.data = s.data.takeWhile py_isspace ++ (parse_args s).1.data
      ++ ((s.data.dropWhile py_isspace).dropWhile (fun c => !py_isspace c)).takeWhile py_isspace
      ++ (parse_args s).2.data := by
  rw [parse_args_fst, parse_args_snd]
  have h1 := List.takeWhile_append_dropWhile py_isspace s.data
  have h2 := List.takeWhile_append_dropWhile (fun c => !py_isspace c) (s.data.dropWhile py_isspace)
  have h3 := List.takeWhile_append_dropWhile py_isspace
    ((s.data.dropWhile py_isspace).dropWhile (fun c => !py_isspace c))
  conv_lhs => rw [← h1, ← h2, ← h3]
  simp [List.append_assoc]

lemma head?_dropWhile_false {p : Char → Bool} {l : List Char} {c : Char} :
    (l.dropWhile p).head? = some c → p c = false := by
  induction l with
  | nil => intro h; simp [List.dropWhile] at h
  | cons x xs ih =>
    intro h
    by_cases hx : p x
    · exact ih (by simpa [List.dropWhile, hx] using h)
    · simp [List.dropWhile, hx] at h
      simpa [h] using hx

lemma rest_head_no_ws (s : String) (c : Char) :
    (parse_args s).2.data.head? = some c → py_isspace c = false := by
  rw [parse_args_snd]
  exact head?_dropWhile_false

lemma if_gt_eq_max (w x : Nat) : (if w < x then x else w) = Nat.max w x := by
  rcases Nat.lt_or_ge w x with h | h
  · simp [h, Nat.max_eq_right (Nat.le_of_lt h)]
  · simp [Nat.not_lt.mpr h, Nat.max_eq_left h]

lemma register_ok_spec (d : CommandDispatcher) (key : String)
    (f : String → Option String) (a desc : String) (sub : Option CommandDispatcher)
    (d' : CommandDispatcher) (h : d.register_command key f a desc sub = Except.ok d') :
    (d.get key).isSome = false ∧
    d'.commands = d.commands ++ [(key, BotCommand.make f desc key sub a)] ∧
    d'.command_width = Nat.max d.command_width key.length ∧
    d'.argspec_width = Nat.max d.argspec_width a.length := by
  unfold CommandDispatcher.register_command at h
  by_cases hk : (d.get key).isSome
  · simp [hk] at h
  · simp [hk] at h
    refine ⟨by simpa using hk, ?_, ?_, ?_⟩
    · rw [← h]
      simp [CommandDispatcher.commands]
    · rw [← h]
      simp [CommandDispatcher.command_width, if_gt_eq_max]
    · rw [← h]
      simp [CommandDispatcher.argspec_width, if_gt_eq_max]

lemma register_error_iff (d : CommandDispatcher) (key : String)
    (f : String → Option String) (a desc : String) (sub : Option CommandDispatcher) :
    (d.register_command key f a desc sub).isOk = false ↔ (d.get key).isSome = true := by
  unfold CommandDispatcher.register_command
  by_cases hk : (d.get key).isSome
  · simp [hk, Except.isOk, Except.toBool]
  · simp [hk, Except.isOk, Except.toBool]

lemma lookupFirst_append_right {α : Type} (l : List (String × α)) (key : String) (v : α)
    (h : lookupFirst l key = none) :
    lookupFirst (l ++ [(key, v)]) key = some v := by
  induction l with
  | nil => simp [lookupFirst]
  | cons p rest ih =>
    by_cases hp : p.1 = key
    · simp [lookupFirst, hp] at h
    · simp only [lookupFirst, List.cons_append] at h ⊢
      rcases p with ⟨k, w⟩
      simp only at hp
      simp [hp] at h ⊢
      exact ih h

lemma keys_append_single (d : CommandDispatcher) (key : String) (c : BotCommand) :
    (CommandDispatcher.mk (d.commands ++ [(key, c)]) 0 0).keys = d.keys ++ [key] := by
  simp [CommandDispatcher.keys, CommandDispatcher.commands]

lemma registerAll_spec : ∀ (reqs : List RegRequest) (d0 d : CommandDispatcher),
    registerAll d0 reqs = Except.ok d →
    d.keys = d0.keys ++ reqs.map RegRequest.key ∧
    d.command_width = reqs.foldl (fun acc r => Nat.max acc r.key.length) d0.command_width ∧
    d.argspec_width = reqs.foldl (fun acc r => Nat.max acc r.argspec.length) d0.argspec_width := by
  intro reqs
  induction reqs with
  | nil =>
    intro d0 d h
    simp [registerAll] at h
    simp [← h, List.foldl]
  | cons r rs ih =>
    intro d0 d h
    unfold registerAll at h
    cases hreg : d0.register_command r.key r.func r.argspec r.description r.subcommands with
    | error e => rw [hreg] at h; exact absurd h (by simp)
    | ok d1 =>
      rw [hreg] at h
      obtain ⟨hk1, hc1, hw1, ha1⟩ := register_ok_spec d0 r.key r.func r.argspec r.description
        r.subcommands d1 hreg
      obtain ⟨ihk, ihw, iha⟩ := ih d1 d h
      have hkeys1 : d1.keys = d0.keys ++ [r.key] := by
        simp [CommandDispatcher.keys, hc1]
      refine ⟨?_, ?_, ?_⟩
      · rw [ihk, hkeys1]; simp
      · rw [ihw, List.foldl_cons, hw1]
      · rw [iha, List.foldl_cons, ha1]

lemma foldl_max_eq_maxLen (l : List Nat) : ∀ a : Nat, l.foldl Nat.max a = Nat.max a (maxLen l) := by
  induction l with
  | nil => intro a; simp [maxLen]
  | cons x xs ih =>
    intro a
    simp only [List.foldl_cons, maxLen, List.foldr_cons]
    rw [ih (Nat.max a x)]
    simp only [maxLen]
    exact Nat.max_assoc a x (List.foldr Nat.max 0 xs)

lemma foldl_max_key (reqs : List RegRequest) (a : Nat) :
    reqs.foldl (fun acc r => Nat.max acc r.key.length) a =
      Nat.max a (maxLen (reqs.map (fun r => r.key.length))) := by
  rw [← List.foldl_map (fun r : RegRequest => r.key.length) Nat.max]
  exact foldl_max_eq_maxLen _ a

lemma foldl_max_argspec (reqs : List RegRequest) (a : Nat) :
    reqs.foldl (fun acc r => Nat.max acc r.argspec.length) a =
      Nat.max a (maxLen (reqs.map (fun r => r.argspec.length))) := by
  rw [← List.foldl_map (fun r : RegRequest => r.argspec.length) Nat.max]
  exact foldl_max_eq_maxLen _ a

example (reqs : List RegRequest) (d : CommandDispatcher)
    (h : registerAll CommandDispatcher.new reqs = Except.ok d) :
    d.keys = reqs.map RegRequest.key ∧
    d.command_width = maxLen (reqs.map (fun r => r.key.length)) ∧
    d.argspec_width = maxLen (reqs.map (fun r => r.argspec.length)) := by
  obtain ⟨hk, hw, ha⟩ := registerAll_spec reqs CommandDispatcher.new d h
  refine ⟨?_, ?_, ?_⟩
  · simpa [CommandDispatcher.new, CommandDispatcher.keys, CommandDispatcher.commands] using hk
  · rw [hw, foldl_max_key]
    simp [CommandDispatcher.new, CommandDispatcher.command_width]
  · rw [ha, foldl_max_argspec]
    simp [CommandDispatcher.new, CommandDispatcher.argspec_width]

lemma get_after_register (d : CommandDispatcher) (key : String)
    (f : String → Option String) (a desc : String) (sub : Option CommandDispatcher)
    (d' : CommandDispatcher) (h : d.register_command key f a desc sub = Except.ok d') :
    d'.get key = some (BotCommand.make f desc key sub a) := by
  obtain ⟨hk, hc, _, _⟩ := register_ok_spec d key f a desc sub d' h
  unfold CommandDispatcher.get
  rw [hc]
  apply lookupFirst_append_right
  cases ho : d.get key with
  | none => exact ho
  | some v => rw [ho] at hk; simp at hk

lemma make_argspec_derived (f : String → Option String) (desc key : String)
    (sub : CommandDispatcher) :
    (BotCommand.make f desc key (some sub) "").argspec = String.intercalate "|" sub.keys := by
  simp [BotCommand.make, BotCommand.argspec]

lemma make_argspec_explicit (f : String → Option String) (desc key a : String)
    (sub : CommandDispatcher) (ha : a ≠ "") :
    (BotCommand.make f desc key (some sub) a).argspec = a := by
  simp [BotCommand.make, BotCommand.argspec, ha]

/-- Claim C1: dispatch splits the input, returns NoMatch when the key is
absent (no reply sent), Silent when the handler result is empty or absent (no
reply sent), Reply otherwise; a registered `ping` whose handler always
answers `pong` makes `ping anything` dispatch to `Reply "pong"`. -/
theorem C1_dispatch_results :
    (∀ (reg : CommandDispatcher) (raw : String),
      (dispatch reg raw = DispatchResult.NoMatch ↔ reg.get (parse_args raw).1 = none) ∧
      (∀ command, reg.get (parse_args raw).1 = some command →
        ((command.call (parse_args raw).2 = none ∨ command.call (parse_args raw).2 = some "") →
          dispatch reg raw = DispatchResult.Silent) ∧
        (∀ t, command.call (parse_args raw).2 = some t → t ≠ "" →
          dispatch reg raw = DispatchResult.Reply t))) ∧
    (∀ (user_names : List (String × String)) (reg : CommandDispatcher) (msg : Msg)
        (response_id : Nat),
      calculate_response user_names reg msg response_id = none ↔
        ∀ t, dispatch reg msg.text ≠ DispatchResult.Reply t) ∧
    dispatch pingReg "ping anything" = DispatchResult.Reply "pong" := by
  refine ⟨?_, ?_, by decide⟩
  · intro reg raw
    constructor
    · unfold dispatch
      cases hg : reg.get (parse_args raw).1 with
      | none => simp [hg]
      | some command =>
        cases hc : command.call (parse_args raw).2 with
        | none => simp [hg, hc]
        | some t => by_cases ht : t = "" <;> simp [hg, hc, ht]
    · intro command hcmd
      constructor
      · intro hfalsy
        unfold dispatch
        rcases hfalsy with hn | he
        · simp [hcmd, hn]
        · simp [hcmd, he]
      · intro t hc ht
        unfold dispatch
        simp [hcmd, hc, ht]
  · intro user_names reg msg response_id
    unfold calculate_response dispatch
    cases hg : reg.get (parse_args msg.text).1 with
    | none => simp [hg]
    | some command =>
      cases hc : command.call (parse_args msg.text).2 with
      | none => simp [hg, hc]
      | some t =>
        by_cases ht : t = ""
        · simp [hg, hc, ht]
        · simp only [hg, hc, if_neg ht]
          constructor
          · intro h; exact absurd h (by simp)
          · intro h; exact absurd rfl (h t)

/-- Witness for C1 at the concrete ping registry. -/
theorem C1_dispatch_results_witness :
    dispatch pingReg "ping anything" = DispatchResult.Reply "pong" :=
  ((C1_dispatch_results.1 pingReg "ping anything").2 pingCmd rfl).2 "pong" rfl (by decide)

/-- Counterexample to C2 as stated: registering `jenkins` over a sub-registry
with keys `info|help` and a defaulted argspec stores the derived argspec
(length 9) on the entry, yet the registry's `argspec_width` stays 0, so
`argspec_width` is not the maximum over the registered entries' argspecs. -/
theorem C2_widths_counterexample :
    widthReg.argspec_width = 0 ∧
    (widthReg.get "jenkins").map BotCommand.argspec = some "info|help" ∧
    maxLen (widthReg.values.map (fun c => c.argspec.length)) = 9 ∧
    ¬ widthReg.argspec_width = maxLen (widthReg.values.map (fun c => c.argspec.length)) := by
  decide

/-- Claim C2 as amended: after any successful registration sequence,
`command_width` is the maximum key length and `argspec_width` is the maximum
length of the argspec arguments as passed to `register_command` - an entry
whose argspec was derived from a sub-registry contributes only its passed
(empty) argspec. -/
theorem C2_widths_amended :
    ∀ (reqs : List RegRequest) (d : CommandDispatcher),
      registerAll CommandDispatcher.new reqs = Except.ok d →
      d.keys = reqs.map RegRequest.key ∧
      d.command_width = maxLen (reqs.map (fun r => r.key.length)) ∧
      d.argspec_width = maxLen (reqs.map (fun r => r.argspec.length)) := by
  intro reqs d h
  obtain ⟨hk, hw, ha⟩ := registerAll_spec reqs CommandDispatcher.new d h
  refine ⟨?_, ?_, ?_⟩
  · simpa [CommandDispatcher.new, CommandDispatcher.keys, CommandDispatcher.commands] using hk
  · rw [hw, foldl_max_key]
    simp [CommandDispatcher.new, CommandDispatcher.command_width]
  · rw [ha, foldl_max_argspec]
    simp [CommandDispatcher.new, CommandDispatcher.argspec_width]

/-- Witness for amended C2 on the two-command registry `a`, `bb`. -/
theorem C2_widths_amended_witness :
    wReg.keys = ["a", "bb"] ∧ wReg.command_width = 2 ∧ wReg.argspec_width = 1 := by
  obtain ⟨h1, h2, h3⟩ := C2_widths_amended wReqs wReg rfl
  exact ⟨h1.trans rfl, h2.trans rfl, h3.trans rfl⟩

/-- Claim C3: dispatching `jenkins info myproject` matches `jenkins`,
re-splits `info myproject` into the Jenkins sub-registry, matches `info`, and
the reply in a channel context with sender alice is prefixed `alice, `, while
the same dispatch in a direct-message channel is unprefixed. -/
theorem C3_jenkins_end_to_end :
    parse_args "jenkins info myproject" = ("jenkins", "info myproject") ∧
    (c3Root.get "jenkins").isSome = true ∧
    parse_args "info myproject" = ("info", "myproject") ∧
    (jenkinsCommands.get "info").isSome = true ∧
    Jenkins.info jenkinsJobs "myproject" = some "Found MyProject (http://...)" ∧
    Jenkins.process jenkinsCommands "info myproject" = some "Found MyProject (http://...)" ∧
    calculate_response c3Users c3Root ⟨"C123", "U1", "jenkins info myproject"⟩ 1 =
      some ⟨1, "C123", "alice, Found MyProject (http://...)"⟩ ∧
    calculate_response c3Users c3Root ⟨"D456", "U1", "jenkins info myproject"⟩ 1 =
      some ⟨1, "D456", "Found MyProject (http://...)"⟩ := by
  decide

/-- Counterexample to C4 as stated: on input with leading whitespace the
code's splitter does not split on the first whitespace run (which is the
leading run); it discards leading whitespace first. -/
theorem C4_splitter_counterexample :
    parse_args "  foo bar" = ("foo", "bar") ∧
    split_first_ws_run "  foo bar" = ("", "foo bar") ∧
    ¬ parse_args "  foo bar" = split_first_ws_run "  foo bar" := by
  decide

/-- Claim C4 as amended: the four pinned examples hold, and for every input
the text decomposes as leading whitespace, the returned key, the separating
whitespace run, and the remainder passed through verbatim (the remainder
never starts with whitespace). -/
theorem C4_splitter_amended :
    parse_args "foo bar a b c" = ("foo", "bar a b c") ∧
    parse_args "foo" = ("foo", "") ∧
    parse_args "" = ("", "") ∧
    parse_args "   " = ("", "") ∧
    (∀ s : String,
      s.data = s.data.takeWhile py_isspace ++ (parse_args s).1.data
        ++ ((s.data.dropWhile py_isspace).dropWhile (fun c => !py_isspace c)).takeWhile py_isspace
        ++ (parse_args s).2.data) ∧
    (∀ s : String, (parse_args s).2.data.head?.all (fun c => !py_isspace c) = true) := by
  refine ⟨by decide, by decide, by decide, by decide, decomp, ?_⟩
  intro s
  cases hh : (parse_args s).2.data.head? with
  | none => simp [Option.all]
  | some c =>
    have := rest_head_no_ws s c hh
    simp [Option.all, this]

/-- Claim C5: registration fails exactly when the key is already present, and
a successful registration appends exactly that key. -/
theorem C5_duplicate_registration :
    ∀ (d : CommandDispatcher) (key : String) (f : String → Option String)
      (a desc : String) (sub : Option CommandDispatcher),
      ((d.register_command key f a desc sub).isOk = false ↔ d.has key = true) ∧
      (∀ d', d.register_command key f a desc sub = Except.ok d' →
        d'.keys = d.keys ++ [key]) := by
  intro d key f a desc sub
  constructor
  · exact register_error_iff d key f a desc sub
  · intro d' h
    obtain ⟨_, hc, _, _⟩ := register_ok_spec d key f a desc sub d' h
    simp [CommandDispatcher.keys, hc]

/-- Witness for C5: re-registering `ping` fails; the first registration added
exactly the key `ping`. -/
theorem C5_duplicate_registration_witness :
    (pingReg.register_command "ping" (fun _ => some "pong") "" "replies with pong" none).isOk
      = false ∧
    pingReg.keys = CommandDispatcher.new.keys ++ ["ping"] :=
  ⟨(C5_duplicate_registration pingReg "ping" (fun _ => some "pong") ""
      "replies with pong" none).1.mpr (by decide),
   (C5_duplicate_registration CommandDispatcher.new "ping" (fun _ => some "pong") ""
      "replies with pong" none).2 pingReg rfl⟩

/-- Claim C6: with a sub-registry and a defaulted argspec the stored argspec
is the pipe-join of the sub-registry's keys in insertion order; an explicit
non-empty argspec is kept unchanged. -/
theorem C6_argspec_derivation :
    ∀ (d : CommandDispatcher) (key : String) (f : String → Option String)
      (desc : String) (sub : CommandDispatcher),
      (∀ d', d.register_command key f "" desc (some sub) = Except.ok d' →
        (d'.get key).map BotCommand.argspec = some (String.intercalate "|" sub.keys)) ∧
      (∀ a d', a ≠ "" → d.register_command key f a desc (some sub) = Except.ok d' →
        (d'.get key).map BotCommand.argspec = some a) := by
  intro d key f desc sub
  constructor
  · intro d' h
    rw [get_after_register d key f "" desc (some sub) d' h]
    simp [make_argspec_derived]
  · intro a d' ha h
    rw [get_after_register d key f a desc (some sub) d' h]
    simp [make_argspec_explicit f desc key a sub ha]

/-- Witness for C6: derived argspec `info|help` and explicit argspec
`custom`. -/
theorem C6_argspec_derivation_witness :
    (widthReg.get "jenkins").map BotCommand.argspec
      = some (String.intercalate "|" widthSub.keys) ∧
    (custReg.get "jenkins").map BotCommand.argspec = some "custom" :=
  ⟨(C6_argspec_derivation CommandDispatcher.new "jenkins" (fun _ => none) "" widthSub).1
      widthReg rfl,
   (C6_argspec_derivation CommandDispatcher.new "jenkins" (fun _ => none) "" widthSub).2
      "custom" custReg (by decide) rfl⟩

/-- Counterexample to C7 as stated: for an input matching a command with no
sub-registry the Help command renders that command's single help line, not
the root registry's help. -/
theorem C7_help_counterexample :
    help_call c7Reg "ping" = "```ping  sends pong```" ∧
    "```" ++ c7Reg.help none ++ "```" = "```  ping  sends pong\nstatus  shows status```" ∧
    ¬ help_call c7Reg "ping" = "```" ++ c7Reg.help none ++ "```" := by
  decide

/-- Claim C7 as amended: empty or unmatched input renders the root registry's
help; a matched command with a sub-registry renders that sub-registry's help
scoped by the command; a matched command without a sub-registry renders that
command's single help line. -/
theorem C7_help_amended :
    ∀ (commands : CommandDispatcher) (text : String),
      (commands.get text = none →
        help_call commands text = "```" ++ commands.help none ++ "```") ∧
      (∀ command sub, commands.get text = some command → command.subcommands = some sub →
        help_call commands text = "```" ++ sub.help (some command) ++ "```") ∧
      (∀ command, commands.get text = some command → command.subcommands = none →
        help_call commands text = "```" ++ help_text_single command ++ "```") := by
  intro commands text
  refine ⟨?_, ?_, ?_⟩
  · intro hg
    simp [help_call, hg]
  · intro command sub hg hs
    simp [help_call, hg, hs]
  · intro command hg hs
    simp [help_call, hg, hs]

/-- Witness for amended C7: unmatched input gives root help; `ping` (no
sub-registry) gives its single line. -/
theorem C7_help_amended_witness :
    help_call c7Reg "zzz" = "```" ++ c7Reg.help none ++ "```" ∧
    help_call c7Reg "ping" = "```" ++ help_text_single c7PingCmd ++ "```" :=
  ⟨(C7_help_amended c7Reg "zzz").1 rfl,
   (C7_help_amended c7Reg "ping").2.2 c7PingCmd rfl rfl⟩

/-- Claim C8: registry help is the newline-join of its lines, and the Help
command's output is always that join wrapped in literal triple-backtick
markers (so it begins and ends with them). -/
theorem C8_help_wrapping :
    (∀ (d : CommandDispatcher) (parent_command : Option BotCommand),
      d.help parent_command = String.intercalate "\n" (d.helpLines parent_command)) ∧
    (∀ (commands : CommandDispatcher) (text : String), ∃ lines : List String,
      help_call commands text = "```" ++ String.intercalate "\n" lines ++ "```") := by
  constructor
  · intro d parent_command
    rfl
  · intro commands text
    unfold help_call
    cases hg : commands.get text with
    | none => exact ⟨commands.helpLines none, by simp [hg, CommandDispatcher.help]⟩
    | some command =>
      cases hs : command.subcommands with
      | some sub => exact ⟨sub.helpLines (some command), by simp [hg, hs, CommandDispatcher.help]⟩
      | none =>
        refine ⟨[help_text_single command], ?_⟩
        have hone : String.intercalate "\n" [help_text_single command] = help_text_single command := rfl
        simp [hg, hs, hone]

/-- Claim C9: with no parent, help emits one line per entry in insertion
order, right-justified to the registry widths; on the pinned two-entry
registry the widths are 2 and 1 and the lines come out in order `a`, `bb`. -/
theorem C9_help_layout :
    (∀ d : CommandDispatcher, d.helpLines none = d.values.map (fun command =>
      fmt3 (rjust command.key d.command_width) (rjust command.argspec d.argspec_width)
        command.description)) ∧
    wReg.command_width = 2 ∧ wReg.argspec_width = 1 ∧
    wReg.helpLines none = [" a   first", "bb x second"] ∧
    wReg.help none = " a   first\nbb x second" := by
  refine ⟨fun d => rfl, by decide, by decide, by decide, by decide⟩

/-- Claim C10: the key returned by the splitter never contains whitespace,
and leading whitespace is discarded rather than producing an empty key. -/
theorem C10_key_no_whitespace :
    (∀ s : String, ∀ c ∈ (parse_args s).1.data, py_isspace c = false) ∧
    parse_args "  foo bar" = ("foo", "bar") :=
  ⟨key_no_ws, by decide⟩

/-- Witness for C10 at a concrete input and character. -/
theorem C10_key_no_whitespace_witness : py_isspace 'f' = false :=
  C10_key_no_whitespace.1 "  foo bar" 'f' (by decide)

end Botslacks
